import Mathlib

/-!
Shallow embedding of the Archiflow backend's credit-metered access gate
(authentication, rate limiting, credit accounting) and of the user-update
endpoint, together with theorems settling the specification claims.

Two revisions of the backend are embedded:
* `part_000` (API v2.0): rate limiting inside the auth middleware, a
  structured `useCredits` returning available/required/remaining, and an
  allow-list user update.
* `src/api/index.js` (middle revision): no rate limiting, a boolean
  `useCredits`, and a delete-based user update.
-/

namespace Archiflow

/-- JavaScript truthiness defaulting for an optional integer field:
the value of the expression `x || d` where `x` is the stored field
(absent fields read as `undefined`, and `0` is falsy). -/
def jsOrInt (x : Option Int) (d : Int) : Int :=
  match x with
  | none => d
  | some v => if v = 0 then d else v

/-- Credit-relevant projection of a stored user record under
`users/:uid` in the realtime database.  `none` in a field means the
field is absent from the record. -/
structure UserRec where
  creditsTotal : Option Int
  creditsUsed : Option Int
  deriving DecidableEq

/-- Total credits of a `part_000` user record: `user.creditsTotal || 10`
(line 263). -/
def creditsTotalV2 (u : UserRec) : Int := jsOrInt u.creditsTotal 10

/-- Used credits of a `part_000` user record: `user.creditsUsed || 0`
(line 264). -/
def creditsUsedV2 (u : UserRec) : Int := jsOrInt u.creditsUsed 0

/-- Available credits: `creditsTotal - creditsUsed` (line 265). -/
def availableV2 (u : UserRec) : Int := creditsTotalV2 u - creditsUsedV2 u

/-- Observable external calls made while handling a metered request:
the identity-provider verification, the rate-limit check, and the
Ledger Store (database) read and write issued by `useCredits`. -/
inductive GateEvent where
  | verifyAttempt
  | rateCheck
  | ledgerRead
  | ledgerWrite
  deriving DecidableEq

/-- Result of the `part_000` `useCredits` helper (lines 254-278). -/
inductive CreditResult where
  | noDb
  | userNotFound
  | insufficient (available required : Int)
  | ok (remaining : Int)
  deriving DecidableEq

/-- The `part_000` `useCredits(userId, amount)` helper (lines 254-278),
as a function of the database-configured flag and of the stored record
for this principal.  Returns the result, the record after the call, and
the Ledger Store calls performed (`once('value')` read, `update` write). -/
def useCredits (hasDb : Bool) (user : Option UserRec) (amount : Int) :
    CreditResult × Option UserRec × List GateEvent :=
  if hasDb = false then (.noDb, user, [])
  else
    match user with
    | none => (.userNotFound, none, [.ledgerRead])
    | some u =>
      let creditsTotal := jsOrInt u.creditsTotal 10
      let creditsUsed := jsOrInt u.creditsUsed 0
      let available := creditsTotal - creditsUsed
      if available < amount then
        (.insufficient available amount, some u, [.ledgerRead])
      else
        (.ok (available - amount),
         some { u with creditsUsed := some (creditsUsed + amount) },
         [.ledgerRead, .ledgerWrite])

/-- The `src/api/index.js` `useCredits(userId, amount)` helper
(lines 186-198): boolean result, default total 100. -/
def useCreditsV1 (hasDb : Bool) (user : Option UserRec) (amount : Int) :
    Bool × Option UserRec :=
  if hasDb = false then (false, user)
  else
    match user with
    | none => (false, none)
    | some u =>
      let available := jsOrInt u.creditsTotal 100 - jsOrInt u.creditsUsed 0
      if available < amount then (false, some u)
      else (true, some { u with creditsUsed := some (jsOrInt u.creditsUsed 0 + amount) })

/-- One entry of the in-memory `rateLimits` map of `part_000`
(lines 65-68). -/
structure RateEntry where
  count : Nat
  windowStart : Int
  deriving DecidableEq

/-- `RATE_LIMIT_WINDOW` (line 67): one minute in milliseconds. -/
def RATE_LIMIT_WINDOW : Int := 60000

/-- `RATE_LIMIT_MAX_REQUESTS` (line 68). -/
def RATE_LIMIT_MAX_REQUESTS : Nat := 30

/-- The `part_000` `checkRateLimit(userId)` function (lines 70-84) for a
single principal: given that principal's current map entry (if any) and
the current time, return the admit decision and the entry written back. -/
def checkRateLimit (entry : Option RateEntry) (now : Int) : Bool × RateEntry :=
  let userLimits := entry.getD { count := 0, windowStart := now }
  let userLimits :=
    if now - userLimits.windowStart > RATE_LIMIT_WINDOW then
      { count := 1, windowStart := now }
    else
      { userLimits with count := userLimits.count + 1 }
  (userLimits.count ≤ RATE_LIMIT_MAX_REQUESTS, userLimits)

/-- Runs `checkRateLimit` over a sequence of request times for one
principal, threading the map entry, and collects the admit decisions. -/
def runRateRequests (entry : Option RateEntry) (times : List Int) :
    List Bool × Option RateEntry :=
  match times with
  | [] => ([], entry)
  | t :: ts =>
    match checkRateLimit entry t with
    | (ok, e) =>
      match runRateRequests (some e) ts with
      | (oks, final) => (ok :: oks, final)

/-- JavaScript `String.prototype.startsWith` on the sequence of
characters of the string. -/
def jsStartsWith (s pre : List Char) : Bool := pre.isPrefixOf s

/-- The literal header required by the auth middleware. -/
def bearerMarker : List Char := "Bearer ".toList

/-- The per-principal mutable state a metered request can touch: this
principal's entry in the in-memory `rateLimits` map and this
principal's record in the Ledger Store (`users/:uid`). -/
structure GateState where
  rateEntry : Option RateEntry
  user : Option UserRec
  deriving DecidableEq

/-- Observable HTTP outcome of the `part_000` access gate on a metered
AI endpoint: 401 from `verifyToken`, 429 from the rate limiter, 402
when `useCredits` fails (the insufficient-credits payload carries
`available`/`required`; the other failures carry neither), and the
success response whose body carries `creditsRemaining`. -/
inductive GateResponse where
  | unauthenticated
  | rateLimited
  | paymentRequired (available required : Option Int)
  | okResponse (remaining : Int)
  deriving DecidableEq

/-- The `part_000` gate for one metered request that passes body
validation: the `verifyToken` middleware (lines 87-108: header check,
`verifyIdToken`, `checkRateLimit`) followed by the endpoint's
`useCredits` call and response (for example lines 621-656).
`tokenValid` models whether `admin.auth().verifyIdToken` succeeds.
Returns the response, the principal's state afterwards, and the list of
external calls in order. -/
def runGate (hasDb : Bool) (authHeader : Option (List Char)) (tokenValid : Bool)
    (now : Int) (amount : Int) (st : GateState) :
    GateResponse × GateState × List GateEvent :=
  match authHeader with
  | none => (.unauthenticated, st, [])
  | some h =>
    if jsStartsWith h bearerMarker = false then
      (.unauthenticated, st, [])
    else if tokenValid = false then
      (.unauthenticated, st, [.verifyAttempt])
    else
      match checkRateLimit st.rateEntry now with
      | (admitted, e) =>
        let st1 : GateState := { st with rateEntry := some e }
        if admitted = false then
          (.rateLimited, st1, [.verifyAttempt, .rateCheck])
        else
          match useCredits hasDb st1.user amount with
          | (res, user1, evs) =>
            let st2 : GateState := { st1 with user := user1 }
            match res with
            | .ok remaining =>
              (.okResponse remaining, st2, [.verifyAttempt, .rateCheck] ++ evs)
            | .insufficient a r =>
              (.paymentRequired (some a) (some r), st2, [.verifyAttempt, .rateCheck] ++ evs)
            | .userNotFound =>
              (.paymentRequired none none, st2, [.verifyAttempt, .rateCheck] ++ evs)
            | .noDb =>
              (.paymentRequired none none, st2, [.verifyAttempt, .rateCheck] ++ evs)

/-- The traces the gate can produce, in execution order: every trace is
one of these, so the rate check always follows the verification attempt
and always precedes the Ledger Store read and write. -/
def canonicalTraces : List (List GateEvent) :=
  [[],
   [.verifyAttempt],
   [.verifyAttempt, .rateCheck],
   [.verifyAttempt, .rateCheck, .ledgerRead],
   [.verifyAttempt, .rateCheck, .ledgerRead, .ledgerWrite]]

/-! ### The user-update endpoint (`PUT /api/users/:id`)

Stored records and request bodies are modelled as association lists of
field names to values, with first-occurrence lookup, matching JSON
objects. -/

/-- A JSON-ish field value. -/
inductive JsVal where
  | num (n : Int)
  | str (s : List Char)
  deriving DecidableEq

/-- A JSON object: field names with values. -/
abbrev JsRecord := List (String × JsVal)

/-- First-occurrence field lookup. -/
def lookupField (r : JsRecord) (k : String) : Option JsVal :=
  match r with
  | [] => none
  | (k1, v) :: rest => if k1 = k then some v else lookupField rest k

/-- Overwrite a field (or append it if absent), as a Firebase `update`
does for one key. -/
def setField (r : JsRecord) (k : String) (v : JsVal) : JsRecord :=
  match r with
  | [] => [(k, v)]
  | (k1, v1) :: rest =>
    if k1 = k then (k, v) :: rest else (k1, v1) :: setField rest k v

/-- Remove every occurrence of a field, as the JavaScript `delete`
operator on an object key. -/
def removeField (r : JsRecord) (k : String) : JsRecord :=
  r.filter (fun kv => kv.1 ≠ k)

/-- Apply a Firebase multi-key `update(updates)` to a stored record:
each key of `updates` overwrites the stored child. -/
def applyUpdate (stored updates : JsRecord) : JsRecord :=
  updates.foldl (fun r kv => setField r kv.1 kv.2) stored

/-- The field allow-list of the `part_000` user update (line 338). -/
def allowedFieldsV2 : List String := ["name", "avatar"]

/-- The stored user record after `PUT /api/users/:id` in `part_000`
(lines 331-356): only `name` and `avatar` are copied from the body; an
empty update is rejected with 400 and writes nothing. -/
def putUserV2 (stored body : JsRecord) : JsRecord :=
  let updates := allowedFieldsV2.foldl
    (fun acc f =>
      match lookupField body f with
      | some v => acc ++ [(f, v)]
      | none => acc) []
  if updates.isEmpty then stored else applyUpdate stored updates

/-- The stored user record after `PUT /api/users/:id` in
`src/api/index.js` (lines 241-256): the whole body is the update after
`delete updates.id` and `delete updates.creditsTotal`. -/
def putUserV1 (stored body : JsRecord) : JsRecord :=
  applyUpdate stored (removeField (removeField body "id") "creditsTotal")

/-! ### Per-endpoint debit amounts -/

/-- The metered AI operations. -/
inductive AiEndpoint where
  | transcribe
  | generateReport
  | refineReport
  | convertPdf
  deriving DecidableEq

/-- The `amount` each `part_000` AI endpoint passes to `useCredits`
(lines 630, 667, 712, 747). -/
def debitAmountV2 : AiEndpoint → Int
  | .transcribe => 1
  | .generateReport => 1
  | .refineReport => 1
  | .convertPdf => 1

/-- The `amount` each `src/api/index.js` AI endpoint passes to
`useCredits` (lines 483, 509, 540, 567). -/
def debitAmountV1 : AiEndpoint → Int
  | .transcribe => 1
  | .generateReport => 2
  | .refineReport => 1
  | .convertPdf => 1

/-! ### Interleaved debits

`useCredits` suspends twice: at the Ledger Store read and at the write.
A concurrent debit attempt is therefore a thread with two atomic
phases; a schedule interleaves the phases of several attempts against
the shared record. -/

/-- Progress of one in-flight `useCredits` call. -/
inductive DebitPhase where
  | ready
  | readDone (snap : Option UserRec)
  | finished (res : CreditResult)
  deriving DecidableEq

/-- Shared record plus the in-flight debit attempts. -/
structure ConcRun where
  ledger : Option UserRec
  threads : List DebitPhase
  deriving DecidableEq

/-- One atomic step of a `useCredits` call (`part_000` lines 254-278,
database configured): the first step performs the `once('value')` read;
the second computes from the snapshot and, when sufficient, issues
`update({creditsUsed: creditsUsed + amount})` against the current
record. -/
def stepThread (amount : Int) (ledger : Option UserRec) :
    DebitPhase → Option UserRec × DebitPhase
  | .ready => (ledger, .readDone ledger)
  | .readDone snap =>
    match snap with
    | none => (ledger, .finished .userNotFound)
    | some u =>
      let creditsTotal := jsOrInt u.creditsTotal 10
      let creditsUsed := jsOrInt u.creditsUsed 0
      let available := creditsTotal - creditsUsed
      if available < amount then
        (ledger, .finished (.insufficient available amount))
      else
        (match ledger with
         | some cur => some { cur with creditsUsed := some (creditsUsed + amount) }
         | none => some { creditsTotal := none, creditsUsed := some (creditsUsed + amount) },
         .finished (.ok (available - amount)))
  | .finished r => (ledger, .finished r)

/-- Advance thread `i` by one step. -/
def stepRun (amount : Int) (run : ConcRun) (i : Nat) : ConcRun :=
  match run.threads[i]? with
  | none => run
  | some ph =>
    match stepThread amount run.ledger ph with
    | (l1, ph1) => { ledger := l1, threads := run.threads.set i ph1 }

/-- Run a schedule: each entry names the thread that takes the next
step. -/
def runSchedule (amount : Int) (run : ConcRun) (sched : List Nat) : ConcRun :=
  sched.foldl (stepRun amount) run

/-- Number of debit attempts that finished successfully. -/
def successCount (run : ConcRun) : Nat :=
  run.threads.countP (fun ph =>
    match ph with
    | .finished (.ok _) => true
    | _ => false)

/-- Non-interleaved debits: each `useCredits` call completes before the
next starts. -/
def runSequentialDebits (u : Option UserRec) (amount : Int) :
    Nat → List CreditResult × Option UserRec
  | 0 => ([], u)
  | n + 1 =>
    match useCredits true u amount with
    | (r, u1, _) =>
      match runSequentialDebits u1 amount n with
      | (rs, u2) => (r :: rs, u2)

/-! ### Helper lemmas -/

/-- A stored integer defaulting to `0` reads back as itself, because
`0` is also the falsy default. -/
theorem jsOrInt_some_zero (v : Int) : jsOrInt (some v) 0 = v := by
  unfold jsOrInt
  split <;> simp_all

/-- Evaluation of `useCredits` on the sufficient-credit path. -/
theorem useCredits_sufficient_eq (u : UserRec) (amount : Int)
    (h : amount ≤ availableV2 u) :
    useCredits true (some u) amount =
      (.ok (availableV2 u - amount),
       some { u with creditsUsed := some (creditsUsedV2 u + amount) },
       [.ledgerRead, .ledgerWrite]) := by
  have h1 : ¬ (jsOrInt u.creditsTotal 10 - jsOrInt u.creditsUsed 0 < amount) := by
    unfold availableV2 creditsTotalV2 creditsUsedV2 at h
    omega
  simp [useCredits, h1, availableV2, creditsTotalV2, creditsUsedV2]

/-- Evaluation of `useCredits` on the insufficient-credit path. -/
theorem useCredits_insufficient_eq (u : UserRec) (amount : Int)
    (h : availableV2 u < amount) :
    useCredits true (some u) amount =
      (.insufficient (availableV2 u) amount, some u, [.ledgerRead]) := by
  have h1 : jsOrInt u.creditsTotal 10 - jsOrInt u.creditsUsed 0 < amount := by
    unfold availableV2 creditsTotalV2 creditsUsedV2 at h
    omega
  simp [useCredits, h1, availableV2, creditsTotalV2, creditsUsedV2]

/-- The Ledger Store calls of a `useCredits` call, in order: possibly a
read, then possibly a write. -/
theorem useCredits_events (hasDb : Bool) (user : Option UserRec) (amount : Int) :
    (useCredits hasDb user amount).2.2 = [] ∨
    (useCredits hasDb user amount).2.2 = [.ledgerRead] ∨
    (useCredits hasDb user amount).2.2 = [.ledgerRead, .ledgerWrite] := by
  rcases hasDb <;> rcases user <;> simp [useCredits]
  split <;> simp

/-- Debiting only rewrites `creditsUsed`, so `available` drops by the
debited amount. -/
theorem available_after_debit (u : UserRec) (amount : Int) :
    availableV2 { u with creditsUsed := some (creditsUsedV2 u + amount) } =
      availableV2 u - amount := by
  simp [availableV2, creditsTotalV2, creditsUsedV2, jsOrInt_some_zero]
  omega

/-- Expired window: the entry is reset and the request admitted. -/
theorem checkRateLimit_reset (c : Nat) (w now : Int) (h : now - w > 60000) :
    checkRateLimit (some ⟨c, w⟩) now = (true, ⟨1, now⟩) := by
  simp [checkRateLimit, RATE_LIMIT_WINDOW, RATE_LIMIT_MAX_REQUESTS, h]

/-- Live window: the count is incremented unconditionally and the
request is admitted iff the new count is within the limit. -/
theorem checkRateLimit_increment (c : Nat) (w now : Int) (h : now - w ≤ 60000) :
    checkRateLimit (some ⟨c, w⟩) now = (decide (c + 1 ≤ 30), ⟨c + 1, w⟩) := by
  have h1 : ¬ (now - w > (60000 : Int)) := by omega
  simp [checkRateLimit, RATE_LIMIT_WINDOW, RATE_LIMIT_MAX_REQUESTS, h1]

/-- First request of a principal: a fresh entry with count 1, admitted. -/
theorem checkRateLimit_fresh (now : Int) :
    checkRateLimit none now = (true, ⟨1, now⟩) := by
  simp [checkRateLimit, RATE_LIMIT_WINDOW, RATE_LIMIT_MAX_REQUESTS]

/-- Running a batch of requests all inside the live window: every
request increments the count, whether admitted or not, and the i-th is
admitted iff its resulting count is within the limit. -/
theorem runRate_window (w : Int) (k : Nat) (ts : List Int)
    (h : ∀ t ∈ ts, t - w ≤ 60000) :
    runRateRequests (some ⟨k, w⟩) ts =
      ((List.range ts.length).map (fun i => decide (k + i + 1 ≤ 30)),
       some ⟨k + ts.length, w⟩) := by
  induction ts generalizing k with
  | nil => simp [runRateRequests]
  | cons t ts ih =>
    have ht : t - w ≤ 60000 := h t (by simp)
    rw [runRateRequests, checkRateLimit_increment k w t ht]
    dsimp only
    rw [ih (k + 1) (fun t1 h1 => h t1 (by simp [h1]))]
    have hf : (fun i => decide (k + 1 + i + 1 ≤ 30)) =
        ((fun i => decide (k + i + 1 ≤ 30)) ∘ Nat.succ) := by
      funext i
      rw [Function.comp_apply, decide_eq_decide]
      omega
    rw [List.length_cons, List.range_succ_eq_map, List.map_cons, List.map_map, ← hf]
    dsimp only
    simp only [Prod.mk.injEq, List.cons.injEq, Option.some.injEq, RateEntry.mk.injEq]
    exact ⟨trivial, by omega, trivial⟩

/-- Writing one field leaves the others readable unchanged. -/
theorem lookup_set_ne (r : JsRecord) (ku k : String) (v : JsVal) (h : ku ≠ k) :
    lookupField (setField r ku v) k = lookupField r k := by
  induction r with
  | nil => simp [setField, lookupField, h]
  | cons kv rest ih =>
    obtain ⟨k2, v2⟩ := kv
    by_cases h2 : k2 = ku
    · subst h2
      simp [setField, lookupField, h]
    · simp [setField, lookupField, h2, ih]

/-- A multi-key update leaves every field outside its key set readable
unchanged. -/
theorem lookup_applyUpdate_ne (stored updates : JsRecord) (k : String)
    (h : ∀ kv ∈ updates, kv.1 ≠ k) :
    lookupField (applyUpdate stored updates) k = lookupField stored k := by
  induction updates generalizing stored with
  | nil => rfl
  | cons kv rest ih =>
    have hstep : applyUpdate stored (kv :: rest) =
        applyUpdate (setField stored kv.1 kv.2) rest := by
      simp [applyUpdate]
    rw [hstep, ih (setField stored kv.1 kv.2) (fun x hx => h x (List.mem_cons_of_mem _ hx))]
    exact lookup_set_ne stored kv.1 k kv.2 (h kv (List.mem_cons_self _ _))

/-- Once the account is exhausted, every further sequential debit of a
positive amount fails with the shortfall and writes nothing. -/
theorem runSeq_zero_available (u : UserRec) (amount : Int) (n : Nat)
    (h0 : availableV2 u = 0) (hA : 0 < amount) :
    runSequentialDebits (some u) amount n =
      (List.replicate n (.insufficient 0 amount), some u) := by
  induction n with
  | zero => simp [runSequentialDebits]
  | succ n ih =>
    have hlt : availableV2 u < amount := by omega
    rw [runSequentialDebits, useCredits_insufficient_eq u amount hlt, h0]
    dsimp only
    rw [ih]
    simp [List.replicate_succ]

/-- Updating `creditsUsed` stores exactly the written value. -/
theorem creditsUsedV2_update (u : UserRec) (v : Int) :
    creditsUsedV2 { u with creditsUsed := some v } = v := by
  simp [creditsUsedV2, jsOrInt_some_zero]

/-- The part_000 user update can only touch the allow-listed fields:
any other field reads back unchanged. -/
theorem putUserV2_frame (stored body : JsRecord) (k : String)
    (hk1 : k ≠ "name") (hk2 : k ≠ "avatar") :
    lookupField (putUserV2 stored body) k = lookupField stored k := by
  unfold putUserV2 allowedFieldsV2
  dsimp only [List.foldl]
  rcases hn : lookupField body "name" with _ | vn <;>
    rcases ha : lookupField body "avatar" with _ | va <;>
    simp [hn, ha] <;>
    apply lookup_applyUpdate_ne <;>
    intro kv hkv <;>
    simp at hkv
  · subst hkv
    exact fun h => hk2 h.symm
  · subst hkv
    exact fun h => hk1 h.symm
  · rcases hkv with hkv | hkv <;> subst hkv
    · exact fun h => hk1 h.symm
    · exact fun h => hk2 h.symm

/-- The index.js user update deletes `creditsTotal` from the update
object, so the stored total reads back unchanged. -/
theorem putUserV1_total_frame (stored body : JsRecord) :
    lookupField (putUserV1 stored body) "creditsTotal" =
      lookupField stored "creditsTotal" := by
  unfold putUserV1 removeField
  apply lookup_applyUpdate_ne
  intro kv hkv
  simp [List.mem_filter] at hkv
  exact hkv.2.1

/-! ### Claim theorems -/

/-- C1: for a principal with an existing account record and
`available = creditsTotal - creditsUsed >= amount`, `useCredits`
succeeds, writes back exactly `creditsUsed + amount` as the new
`creditsUsed` in a single Ledger Store update, and returns
`remaining = available - amount`; the successful metered-endpoint
response then carries this remaining value. -/
theorem useCredits_sufficient_success (u : UserRec) (amount : Int)
    (hdr : List Char) (now : Int) (st : GateState)
    (hsuff : amount ≤ availableV2 u) :
    useCredits true (some u) amount =
      (.ok (availableV2 u - amount),
       some { u with creditsUsed := some (creditsUsedV2 u + amount) },
       [.ledgerRead, .ledgerWrite]) ∧
    (jsStartsWith hdr bearerMarker = true → st.user = some u →
      (checkRateLimit st.rateEntry now).1 = true →
      runGate true (some hdr) true now amount st =
        (.okResponse (availableV2 u - amount),
         ⟨some (checkRateLimit st.rateEntry now).2,
          some { u with creditsUsed := some (creditsUsedV2 u + amount) }⟩,
         [.verifyAttempt, .rateCheck, .ledgerRead, .ledgerWrite])) := by
  refine ⟨useCredits_sufficient_eq u amount hsuff, ?_⟩
  intro hb huser hadm
  rcases hc : checkRateLimit st.rateEntry now with ⟨adm, e⟩
  rw [hc] at hadm
  dsimp at hadm
  subst hadm
  simp [runGate, hb, hc, huser, useCredits_sufficient_eq u amount hsuff]

/-- Witness for C1 at a concrete account and request. -/
theorem useCredits_sufficient_success_witness :
    useCredits true (some ⟨some 10, some 3⟩) 2 =
      (.ok (availableV2 ⟨some 10, some 3⟩ - 2),
       some { (⟨some 10, some 3⟩ : UserRec) with
                creditsUsed := some (creditsUsedV2 ⟨some 10, some 3⟩ + 2) },
       [.ledgerRead, .ledgerWrite]) ∧
    runGate true (some "Bearer tok".toList) true 0 2 ⟨none, some ⟨some 10, some 3⟩⟩ =
      (.okResponse (availableV2 ⟨some 10, some 3⟩ - 2),
       ⟨some (checkRateLimit none 0).2,
        some { (⟨some 10, some 3⟩ : UserRec) with
                 creditsUsed := some (creditsUsedV2 ⟨some 10, some 3⟩ + 2) }⟩,
       [.verifyAttempt, .rateCheck, .ledgerRead, .ledgerWrite]) := by
  have h := useCredits_sufficient_success ⟨some 10, some 3⟩ 2 "Bearer tok".toList 0
    ⟨none, some ⟨some 10, some 3⟩⟩ (by decide)
  exact ⟨h.1, h.2 (by decide) rfl (by decide)⟩

/-- C2: when `available = creditsTotal - creditsUsed < amount`,
`useCredits` fails reporting both the available and the required
amounts and writes nothing; in particular `creditsTotal = 10`,
`creditsUsed = 9`, `amount = 2` yields `available = 1, required = 2`
with `creditsUsed` still 9. -/
theorem useCredits_insufficient_shortfall :
    (∀ (u : UserRec) (amount : Int), availableV2 u < amount →
      useCredits true (some u) amount =
        (.insufficient (availableV2 u) amount, some u, [.ledgerRead])) ∧
    useCredits true (some ⟨some 10, some 9⟩) 2 =
      (.insufficient 1 2, some ⟨some 10, some 9⟩, [.ledgerRead]) := by
  exact ⟨fun u amount h => useCredits_insufficient_eq u amount h, by decide⟩

/-- Witness for C2 at the claim's concrete account. -/
theorem useCredits_insufficient_shortfall_witness :
    useCredits true (some ⟨some 10, some 9⟩) 2 =
      (.insufficient 1 2, some ⟨some 10, some 9⟩, [.ledgerRead]) := by
  have ha : availableV2 ⟨some 10, some 9⟩ = 1 := by decide
  have h := useCredits_insufficient_shortfall.1 ⟨some 10, some 9⟩ 2 (by decide)
  rw [ha] at h
  exact h

/-- C8: when the principal's account record is entirely absent, the
debit fails (part_000 with the distinct not-found result, index.js with
a bare failure) and neither revision writes to the Ledger Store. -/
theorem useCredits_absent_account_fails (amount : Int) :
    useCredits true none amount = (.userNotFound, none, [.ledgerRead]) ∧
    useCreditsV1 true none amount = (false, none) := by
  constructor <;> simp [useCredits, useCreditsV1]

/-- C9: debit is not idempotent; two successive successful debits of
`A` lower `available` by exactly `2 × A` and raise `creditsUsed` by
exactly `2 × A`. -/
theorem debit_not_idempotent (u : UserRec) (A r1 r2 : Int)
    (s1 s2 : Option UserRec) (e1 e2 : List GateEvent)
    (_hA : 0 < A)
    (h1 : useCredits true (some u) A = (.ok r1, s1, e1))
    (h2 : useCredits true s1 A = (.ok r2, s2, e2)) :
    ∃ u2, s2 = some u2 ∧
      availableV2 u2 = availableV2 u - 2 * A ∧
      creditsUsedV2 u2 = creditsUsedV2 u + 2 * A := by
  by_cases hlt : availableV2 u < A
  · rw [useCredits_insufficient_eq u A hlt] at h1
    simp at h1
  · push_neg at hlt
    rw [useCredits_sufficient_eq u A hlt] at h1
    simp only [Prod.mk.injEq] at h1
    obtain ⟨-, h1s, -⟩ := h1
    subst h1s
    by_cases hlt2 :
        availableV2 { u with creditsUsed := some (creditsUsedV2 u + A) } < A
    · rw [useCredits_insufficient_eq _ A hlt2] at h2
      simp at h2
    · push_neg at hlt2
      rw [useCredits_sufficient_eq _ A hlt2] at h2
      simp only [Prod.mk.injEq] at h2
      obtain ⟨-, h2s, -⟩ := h2
      refine ⟨_, h2s.symm, ?_, ?_⟩
      · simp only [availableV2, creditsTotalV2, creditsUsedV2, jsOrInt_some_zero]
        omega
      · simp only [creditsUsedV2, jsOrInt_some_zero]
        omega

/-- Witness for C9: two debits of 3 against total 10 leave 4
available. -/
theorem debit_not_idempotent_witness :
    ∃ u2, (some (⟨some 10, some 6⟩ : UserRec)) = some u2 ∧
      availableV2 u2 = availableV2 ⟨some 10, some 0⟩ - 2 * 3 ∧
      creditsUsedV2 u2 = creditsUsedV2 ⟨some 10, some 0⟩ + 2 * 3 := by
  exact debit_not_idempotent ⟨some 10, some 0⟩ 3 7 4
    (some ⟨some 10, some 3⟩) (some ⟨some 10, some 6⟩)
    [.ledgerRead, .ledgerWrite] [.ledgerRead, .ledgerWrite]
    (by decide) (by decide) (by decide)

/-- C3: the rate limiter is a fixed window: an entry older than 60000
ms is reset to count 1 at the new time (and admitted); otherwise the
count is incremented unconditionally — also for requests that end up
rejected — and the request is admitted iff the new count is at most
30; a fresh principal gets count 1; 30 requests inside one window all
admit and leave count 30; a 31st inside the window is rejected (count
31); a request at `windowStart + 60001` admits and resets to count 1. -/
theorem checkRateLimit_fixed_window :
    (∀ (c : Nat) (w now : Int), now - w > 60000 →
      checkRateLimit (some ⟨c, w⟩) now = (true, ⟨1, now⟩)) ∧
    (∀ (c : Nat) (w now : Int), now - w ≤ 60000 →
      checkRateLimit (some ⟨c, w⟩) now = (decide (c + 1 ≤ 30), ⟨c + 1, w⟩)) ∧
    (∀ now : Int, checkRateLimit none now = (true, ⟨1, now⟩)) ∧
    (∀ (t0 : Int) (ts : List Int), ts.length = 29 →
      (∀ t ∈ ts, t - t0 ≤ 60000) →
      runRateRequests none (t0 :: ts) = (List.replicate 30 true, some ⟨30, t0⟩)) ∧
    (∀ (t0 t : Int), t - t0 ≤ 60000 →
      checkRateLimit (some ⟨30, t0⟩) t = (false, ⟨31, t0⟩)) ∧
    (∀ (t0 : Int) (c : Nat),
      checkRateLimit (some ⟨c, t0⟩) (t0 + 60001) = (true, ⟨1, t0 + 60001⟩)) := by
  refine ⟨checkRateLimit_reset, checkRateLimit_increment, checkRateLimit_fresh,
    ?_, ?_, ?_⟩
  · intro t0 ts hlen h
    rw [runRateRequests, checkRateLimit_fresh]
    dsimp only
    rw [runRate_window t0 1 ts h, hlen]
    simp only [Prod.mk.injEq]
    exact ⟨by decide, by norm_num⟩
  · intro t0 t h
    rw [checkRateLimit_increment 30 t0 t h]
    simp only [Prod.mk.injEq]
    exact ⟨by decide, trivial⟩
  · intro t0 c
    exact checkRateLimit_reset c t0 (t0 + 60001) (by omega)

/-- Witness for C3: 30 requests at time 0 all admit; the 31st at
60000 ms (still inside the window) rejects; a request at 60001 ms
admits and resets the counter to 1. -/
theorem checkRateLimit_fixed_window_witness :
    runRateRequests none ((0 : Int) :: List.replicate 29 (0 : Int)) =
      (List.replicate 30 true, some ⟨30, 0⟩) ∧
    checkRateLimit (some ⟨30, 0⟩) 60000 = (false, ⟨31, 0⟩) ∧
    checkRateLimit (some ⟨31, 0⟩) ((0 : Int) + 60001) = (true, ⟨1, (0 : Int) + 60001⟩) := by
  refine ⟨checkRateLimit_fixed_window.2.2.2.1 0 (List.replicate 29 0) (by decide)
      (by decide),
    checkRateLimit_fixed_window.2.2.2.2.1 0 60000 (by decide),
    checkRateLimit_fixed_window.2.2.2.2.2 0 31⟩

/-- C4: on every metered request the gate's external calls happen in
the fixed order verify, rate check, ledger read, ledger write (each
trace is a front part of that order), the rate check only ever runs
after a successful verification, and a request rejected with
`RateLimited` leaves the principal's ledger record untouched — no
Ledger Store call at all on that path. -/
theorem gate_rate_limit_ordering (hasDb : Bool) (header : Option (List Char))
    (tokenValid : Bool) (now amount : Int) (st : GateState) :
    (runGate hasDb header tokenValid now amount st).2.2 ∈ canonicalTraces ∧
    (GateEvent.rateCheck ∈ (runGate hasDb header tokenValid now amount st).2.2 →
      tokenValid = true) ∧
    ((runGate hasDb header tokenValid now amount st).1 = .rateLimited →
      ((runGate hasDb header tokenValid now amount st).2.1).user = st.user ∧
      GateEvent.ledgerRead ∉ (runGate hasDb header tokenValid now amount st).2.2 ∧
      GateEvent.ledgerWrite ∉ (runGate hasDb header tokenValid now amount st).2.2) := by
  rcases header with _ | h
  · simp [runGate, canonicalTraces]
  · cases hb : jsStartsWith h bearerMarker
    · simp [runGate, hb, canonicalTraces]
    · cases tokenValid
      · simp [runGate, hb, canonicalTraces]
      · rcases hc : checkRateLimit st.rateEntry now with ⟨adm, e⟩
        cases adm
        · simp [runGate, hb, hc, canonicalTraces]
        · rcases hu : useCredits hasDb st.user amount with ⟨res, u1, evs⟩
          have hev := useCredits_events hasDb st.user amount
          rw [hu] at hev
          simp only at hev
          cases res <;> rcases hev with hev | hev | hev <;> subst hev <;>
            simp [runGate, hb, hc, hu, canonicalTraces]

/-- Witness for C4 at a throttled request: entry already at count 30
inside the window, so the new request is rejected and the ledger
record stays untouched. -/
theorem gate_rate_limit_ordering_witness :
    ((runGate true (some "Bearer t".toList) true 0 1
        ⟨some ⟨30, 0⟩, some ⟨some 10, some 0⟩⟩).2.2 ∈ canonicalTraces) ∧
    (true = true) ∧
    ((runGate true (some "Bearer t".toList) true 0 1
        ⟨some ⟨30, 0⟩, some ⟨some 10, some 0⟩⟩).2.1.user = some ⟨some 10, some 0⟩ ∧
     GateEvent.ledgerRead ∉ (runGate true (some "Bearer t".toList) true 0 1
        ⟨some ⟨30, 0⟩, some ⟨some 10, some 0⟩⟩).2.2 ∧
     GateEvent.ledgerWrite ∉ (runGate true (some "Bearer t".toList) true 0 1
        ⟨some ⟨30, 0⟩, some ⟨some 10, some 0⟩⟩).2.2) := by
  have h := gate_rate_limit_ordering true (some "Bearer t".toList) true 0 1
    ⟨some ⟨30, 0⟩, some ⟨some 10, some 0⟩⟩
  exact ⟨h.1, h.2.1 (by decide), h.2.2 (by decide)⟩

/-- C7: a request whose Authorization header is absent or does not
start with the literal marker is rejected up front: no verification
attempt, no rate-window entry created or modified, no Ledger Store
call, and the state is returned unchanged. -/
theorem gate_missing_bearer_rejects_early (hasDb : Bool)
    (header : Option (List Char)) (tokenValid : Bool) (now amount : Int)
    (st : GateState)
    (hbad : ∀ s, header = some s → jsStartsWith s bearerMarker = false) :
    runGate hasDb header tokenValid now amount st = (.unauthenticated, st, []) := by
  rcases header with _ | h
  · simp [runGate]
  · simp [runGate, hbad h rfl]

/-- Witness for C7 with a non-Bearer header. -/
theorem gate_missing_bearer_rejects_early_witness :
    runGate true (some "Basic xyz".toList) true 0 1 ⟨none, none⟩ =
      (.unauthenticated, ⟨none, none⟩, []) := by
  exact gate_missing_bearer_rejects_early true (some "Basic xyz".toList) true 0 1
    ⟨none, none⟩ (by intro s hs; cases hs; decide)

/-- C5 counterexample: in the part_000 revision the report-generation
endpoint passes `amount = 1` to `useCredits`, so report generation does
not debit more than 1 credit there. -/
theorem generateReport_cost_not_higher :
    ¬ (1 < debitAmountV2 AiEndpoint.generateReport) := by decide

/-- C5 amended: transcription, refinement and PDF-template operations
debit exactly 1 credit in both revisions; report generation debits 2
credits in the index.js revision but only 1 in the part_000 revision. -/
theorem debit_costs_per_endpoint :
    debitAmountV2 .transcribe = 1 ∧ debitAmountV2 .refineReport = 1 ∧
    debitAmountV2 .convertPdf = 1 ∧ debitAmountV2 .generateReport = 1 ∧
    debitAmountV1 .transcribe = 1 ∧ debitAmountV1 .refineReport = 1 ∧
    debitAmountV1 .convertPdf = 1 ∧ debitAmountV1 .generateReport = 2 := by decide

/-- C6 counterexample: in the index.js revision a PUT body containing
`creditsUsed` overwrites the stored value (the handler only deletes
`id` and `creditsTotal` from the update object). -/
theorem putUserV1_overwrites_creditsUsed :
    lookupField (putUserV1 [("creditsTotal", .num 10), ("creditsUsed", .num 5)]
        [("creditsUsed", .num 0)]) "creditsUsed" ≠
      lookupField [("creditsTotal", .num 10), ("creditsUsed", .num 5)]
        "creditsUsed" := by decide

/-- C6 amended: the part_000 user update leaves both `creditsTotal`
and `creditsUsed` unchanged for every body; the index.js update leaves
`creditsTotal` unchanged for every body, but a body containing
`creditsUsed` overwrites the stored `creditsUsed`. -/
theorem putUser_credit_fields_frame :
    (∀ stored body : JsRecord,
      lookupField (putUserV2 stored body) "creditsTotal" =
        lookupField stored "creditsTotal" ∧
      lookupField (putUserV2 stored body) "creditsUsed" =
        lookupField stored "creditsUsed") ∧
    (∀ stored body : JsRecord,
      lookupField (putUserV1 stored body) "creditsTotal" =
        lookupField stored "creditsTotal") ∧
    lookupField (putUserV1 [("creditsTotal", .num 10), ("creditsUsed", .num 5)]
        [("creditsUsed", .num 0)]) "creditsUsed" = some (.num 0) := by
  exact ⟨fun stored body =>
      ⟨putUserV2_frame stored body "creditsTotal" (by decide) (by decide),
       putUserV2_frame stored body "creditsUsed" (by decide) (by decide)⟩,
    fun stored body => putUserV1_total_frame stored body,
    by decide⟩

/-- C10 counterexample: two interleaved debit attempts of 1 credit
against an account with exactly 1 available credit, scheduled
read-read-write-write, both succeed — more than one success, unlike
the claimed at-most-one. -/
theorem concurrent_debits_both_succeed :
    ¬ (successCount (runSchedule 1 ⟨some ⟨some 1, none⟩, [.ready, .ready]⟩
        [0, 1, 0, 1]) ≤ 1) := by decide

/-- C10 amended: when the N debit attempts run without interleaving
(each `useCredits` completes before the next starts), exactly one
succeeds and the other N−1 fail with the insufficient-credits
shortfall; under interleaved execution the property fails, as both of
two attempts can succeed. -/
theorem sequential_debit_exclusive :
    (∀ (u : UserRec) (A : Int) (N : Nat), 0 < A → availableV2 u = A → 1 ≤ N →
      runSequentialDebits (some u) A N =
        (.ok 0 :: List.replicate (N - 1) (.insufficient 0 A),
         some { u with creditsUsed := some (creditsUsedV2 u + A) })) ∧
    successCount (runSchedule 1 ⟨some ⟨some 1, none⟩, [.ready, .ready]⟩
      [0, 1, 0, 1]) = 2 := by
  refine ⟨?_, by decide⟩
  intro u A N hA hav hN
  obtain ⟨m, rfl⟩ : ∃ m, N = m + 1 := ⟨N - 1, by omega⟩
  rw [runSequentialDebits, useCredits_sufficient_eq u A (by omega)]
  dsimp only
  have hz : availableV2 { u with creditsUsed := some (creditsUsedV2 u + A) } = 0 := by
    rw [available_after_debit, hav]
    omega
  rw [runSeq_zero_available _ A m hz hA]
  simp [hav]

/-- Witness for C10's amended sequential property: three attempts of 2
against available 2 give one success and two shortfall failures. -/
theorem sequential_debit_exclusive_witness :
    runSequentialDebits (some ⟨some 2, none⟩) 2 3 =
      (.ok 0 :: List.replicate (3 - 1) (.insufficient 0 2),
       some { (⟨some 2, none⟩ : UserRec) with
                creditsUsed := some (creditsUsedV2 ⟨some 2, none⟩ + 2) }) := by
  exact sequential_debit_exclusive.1 ⟨some 2, none⟩ 2 3 (by decide) (by decide)
    (by decide)

end Archiflow
